import Mathlib

/-!
Verification of the pyatk host-side boot/flash toolkit.

This file is a shallow embedding of the two wire-protocol engines of the
repository:

* `pyatk/boot.py` — the Serial Boot Protocol (SBP) engine
  (`SerialBootProtocol`): command frame construction (`_write_command`
  padding), `get_status`, `read_memory`, `write_memory`, `write_file`,
  `reenumerate_usb`.
* `pyatk/ramkernel.py` — the RAM kernel protocol (RKL) engine
  (`RAMKernelProtocol`): `_send_command` framing, `_read_response` header
  parsing, `calculate_checksum`, `getver`, `flash_initial`, `flash_dump`,
  `flash_get_capacity`, `flash_erase`, `flash_program`.

The byte channel is modelled as a pair of byte lists: `readBuf` holds the
bytes the device will deliver to `channel.read`, and `written` accumulates
every byte passed to `channel.write`, in order.  `channel.read(n)` returns
up to `n` buffered bytes, exactly as the repository's `MockChannel` does.
Bytes are natural numbers; encoders take values mod 256 per byte, which
agrees with `struct.pack` on all in-range values (the ranges appear as
hypotheses of the theorems).  Python exceptions are modelled as `Except`
errors; callbacks are modelled by returning the list of invocation
arguments in call order.
-/

/-- A duplex byte channel: `readBuf` is the pending device-to-host data,
`written` the host-to-device bytes observed so far (in order). -/
structure Channel where
  readBuf : List Nat
  written : List Nat
  deriving Repr, DecidableEq

/-- Model of `channel.read(n)`: hand out up to `n` buffered bytes (as `MockChannel.read`). -/
def chanRead (ch : Channel) (n : Nat) : List Nat × Channel :=
  (ch.readBuf.take n, { ch with readBuf := ch.readBuf.drop n })

/-- Model of `channel.write(data)`: append to the write trace. -/
def chanWrite (ch : Channel) (data : List Nat) : Channel :=
  { ch with written := ch.written ++ data }

/-- Big-endian 2-byte encoding, as `struct.pack(">H", v)` for `v < 2^16`. -/
def beBytes2 (v : Nat) : List Nat :=
  [v / 256 % 256, v % 256]

/-- Big-endian 4-byte encoding, as `struct.pack(">I", v)` for `v < 2^32`. -/
def beBytes4 (v : Nat) : List Nat :=
  [v / 16777216 % 256, v / 65536 % 256, v / 256 % 256, v % 256]

namespace boot

/-! ### Constants from `pyatk/boot.py` -/

def CMD_READ_MEMORY : Nat := 0x0101
def CMD_WRITE_MEMORY : Nat := 0x0202
def CMD_WRITE_FILE : Nat := 0x0404
def CMD_GET_STATUS : Nat := 0x0505
def CMD_REENUMERATE_USB : Nat := 0x0909

def DATA_SIZE_BYTE : Nat := 0x08
def DATA_SIZE_HALFWORD : Nat := 0x10
def DATA_SIZE_WORD : Nat := 0x20

def ACK_PRODUCTION_PART : Nat := 0x12343412
def ACK_ENGINEERING_PART : Nat := 0x56787856
def ACK_WRITE_SUCCESS : Nat := 0x128A8A12

/-- Errors raised by the SBP engine: `CommandResponseError` for short reads
and unexpected status words, `ValueError` for argument validation. -/
inductive BootError where
  | commandResponseError
  | valueError
  deriving Repr, DecidableEq

/-- Embedding of `SerialBootProtocol._write_command`: pad the command string with zero
bytes to 16 bytes. -/
def pad_command (command : List Nat) : List Nat :=
  if command.length < 16 then command ++ List.replicate (16 - command.length) 0
  else command

/-- The `get_status` frame: `struct.pack(">H", CMD_GET_STATUS)`, padded. -/
def get_status_command : List Nat :=
  pad_command (beBytes2 CMD_GET_STATUS)

/-- The `read_memory` frame:
`struct.pack(">HIBI", CMD_READ_MEMORY, address, datasize, length)`, padded. -/
def read_memory_command (address datasize length : Nat) : List Nat :=
  pad_command (beBytes2 CMD_READ_MEMORY ++ beBytes4 address ++ [datasize % 256]
    ++ beBytes4 length)

/-- The `write_memory` frame: `struct.pack(">HIB4x", ...)` followed by the
width-dependent value packing (`">3xB"`, `">2xH"` or `">I"`), padded. -/
def write_memory_command (address datasize data : Nat) : List Nat :=
  let command := beBytes2 CMD_WRITE_MEMORY ++ beBytes4 address ++ [datasize % 256]
    ++ [0, 0, 0, 0]
  let command :=
    if datasize = DATA_SIZE_BYTE then command ++ [0, 0, 0] ++ [data % 256]
    else if datasize = DATA_SIZE_HALFWORD then command ++ [0, 0] ++ beBytes2 data
    else if datasize = DATA_SIZE_WORD then command ++ beBytes4 data
    else command
  pad_command command

/-- The `write_file` frame:
`struct.pack(">HIxI4xB", CMD_WRITE_FILE, address, length, filetype)`, padded. -/
def write_file_command (filetype address length : Nat) : List Nat :=
  pad_command (beBytes2 CMD_WRITE_FILE ++ beBytes4 address ++ [0]
    ++ beBytes4 length ++ [0, 0, 0, 0] ++ [filetype % 256])

/-- The `reenumerate_usb` frame:
`struct.pack(">H7x4s", CMD_REENUMERATE_USB, serialnum)`, padded.
(`reenumerate_usb` validates `len(serialnum) == 4` before packing.) -/
def reenumerate_usb_command (serialnum : List Nat) : List Nat :=
  pad_command (beBytes2 CMD_REENUMERATE_USB ++ [0, 0, 0, 0, 0, 0, 0] ++ serialnum)

/-- Embedding of `SerialBootProtocol._read_status`: read 4 bytes, fail on a short read,
decode little-endian (`struct.unpack("<I", ...)`). -/
def read_status (ch : Channel) : Channel × Except BootError Nat :=
  match ch.readBuf with
  | s0 :: s1 :: s2 :: s3 :: rest =>
      ({ ch with readBuf := rest }, .ok (s0 + 256 * (s1 + 256 * (s2 + 256 * s3))))
  | _ => ({ ch with readBuf := ch.readBuf.drop 4 }, .error .commandResponseError)

/-- Embedding of `SerialBootProtocol._read_ack`: a status word that must be the
production or engineering ACK. -/
def read_ack (ch : Channel) : Channel × Except BootError Unit :=
  match read_status ch with
  | (ch1, .error e) => (ch1, .error e)
  | (ch1, .ok ack) =>
      if ack = ACK_PRODUCTION_PART ∨ ack = ACK_ENGINEERING_PART then (ch1, .ok ())
      else (ch1, .error .commandResponseError)

/-- The value returned by `read_memory`: a scalar when `length == 1`,
otherwise the array of element values. -/
inductive SBPReadValue where
  | scalar (value : Nat)
  | values (vals : List Nat)
  deriving Repr, DecidableEq

/-- Python `array.array(typecode).fromstring(data)` interprets `data` in host byte
order; assemble one element value from its `width` bytes accordingly. -/
def assembleBytes (hostLittle : Bool) (bytes : List Nat) : Nat :=
  if hostLittle then bytes.foldr (fun b acc => b + 256 * acc) 0
  else bytes.foldl (fun acc b => acc * 256 + b) 0

/-- The little-endian byte decomposition of a `width`-byte element value. -/
def elementBytesLE (width v : Nat) : List Nat :=
  (List.range width).map (fun i => v / 256 ^ i % 256)

/-- Model of `array.byteswap()` on one element value of `width` bytes. -/
def byteswapVal (width v : Nat) : Nat :=
  assembleBytes true (elementBytesLE width v).reverse

/-- The data phase of `read_memory`: `length` reads of `width` bytes each
(`self.channel.read(datasize)`), failing on any short read, each chunk
appended to the result array in host byte order. -/
def readDataLoop (ch : Channel) (hostLittle : Bool) (width : Nat) :
    Nat → Channel × Except BootError (List Nat)
  | 0 => (ch, .ok [])
  | count + 1 =>
      let (data, ch1) := chanRead ch width
      if data.length ≠ width then (ch1, .error .commandResponseError)
      else
        match readDataLoop ch1 hostLittle width count with
        | (ch2, .error e) => (ch2, .error e)
        | (ch2, .ok vals) => (ch2, .ok (assembleBytes hostLittle data :: vals))

/-- Embedding of `SerialBootProtocol.read_memory(address, datasize, length)`:
validate the width and address, emit the command frame, read the 4-byte ACK
(which must be production or engineering), read `length` elements of
`datasize/8` bytes, byte-swap when the configured byte order differs from
the host's, and return a scalar iff `length == 1`. -/
def read_memory (ch : Channel) (byteorderLittle hostLittle : Bool)
    (address datasize length : Nat) :
    Channel × Except BootError SBPReadValue :=
  if ¬(datasize = DATA_SIZE_BYTE ∨ datasize = DATA_SIZE_HALFWORD ∨
       datasize = DATA_SIZE_WORD) then (ch, .error .valueError)
  else if 0xffffffff < address then (ch, .error .valueError)
  else
    let ch0 := chanWrite ch (read_memory_command address datasize length)
    match read_ack ch0 with
    | (ch1, .error e) => (ch1, .error e)
    | (ch1, .ok ()) =>
        match readDataLoop ch1 hostLittle (datasize / 8) length with
        | (ch2, .error e) => (ch2, .error e)
        | (ch2, .ok vals) =>
            let vals :=
              if byteorderLittle ≠ hostLittle then
                vals.map (byteswapVal (datasize / 8))
              else vals
            if length = 1 then (ch2, .ok (.scalar (vals.headD 0)))
            else (ch2, .ok (.values vals))

/-- The streaming phase of `write_file`: while fewer than `length` bytes
have been consumed, read a chunk of up to 1024 bytes from the input stream
(`stream.read(chunk_size)`), fail on an empty read, and write the whole
chunk to the channel. -/
def writeFileLoop (ch : Channel) (stream : List Nat) (length bytes_consumed : Nat) :
    Channel × Except BootError Unit :=
  if bytes_consumed < length then
    let chunk := stream.take 1024
    if h : chunk = [] then (ch, .error .valueError)
    else writeFileLoop (chanWrite ch chunk) (stream.drop 1024) length
      (bytes_consumed + chunk.length)
  else (ch, .ok ())
termination_by stream.length
decreasing_by
  simp only [List.length_drop]
  have hs : stream ≠ [] := by
    intro hnil
    exact h (by simp [chunk, hnil])
  have : 0 < stream.length := List.length_pos.mpr hs
  omega

/-- Embedding of `SerialBootProtocol.write_file(filetype, address, length, stream)`:
emit the command frame, read one ACK, then stream the payload. -/
def write_file (ch : Channel) (filetype address length : Nat) (stream : List Nat) :
    Channel × Except BootError Unit :=
  let ch0 := chanWrite ch (write_file_command filetype address length)
  match read_ack ch0 with
  | (ch1, .error e) => (ch1, .error e)
  | (ch1, .ok ()) => writeFileLoop ch1 stream length 0

end boot

namespace ramkernel

/-! ### Constants from `pyatk/ramkernel.py` -/

def HEADER_MAGIC : Nat := 0x0606

def CMD_FLASH_INITIAL : Nat := 0x0001
def CMD_FLASH_ERASE : Nat := 0x0002
def CMD_FLASH_DUMP : Nat := 0x0003
def CMD_FLASH_PROGRAM : Nat := 0x0004
def CMD_FLASH_GET_CAPACITY : Nat := 0x0006
def CMD_RESET : Nat := 0x0201
def CMD_GETVER : Nat := 0x0204

def FLASH_FILE_FORMAT_NORMAL : Int := 0
def FLASH_FILE_FORMAT_NB0 : Int := 1
def FLASH_FILE_FORMAT_OPS : Int := 2

/-- The RAM kernel's internal buffer bound on one `flash_program` request. -/
def FLASH_PROGRAM_MAX_WRITE_SIZE : Nat := 2 * 1024 * 1024

def ACK_SUCCESS : Int := 0x0000
def ACK_FLASH_PARTLY : Int := 0x0001
def ACK_FLASH_ERASE : Int := 0x0002
def ACK_FLASH_VERIFY : Int := 0x0003

/-- Errors raised by the RKL engine. `structError` stands for the
`struct.error` a short response read produces in `_read_response`;
`valueError` for argument validation in `flash_program`;
`notImplementedError` for the `read_back_verify` branch. -/
inductive RKLError where
  | commandResponseError (command : Nat) (ack : Int) (length : Nat)
  | checksumError (expected_checksum checksum : Nat)
  | structError
  | valueError
  | notImplementedError
  deriving Repr, DecidableEq

/-- Embedding of `calculate_checksum(buf)`: 16-bit sum of the bytes. -/
def calculate_checksum (buf : List Nat) : Nat :=
  buf.foldl (fun checksum byte => (checksum + byte) % 0x10000) 0

/-- Embedding of `RAMKernelProtocol._send_command` framing:
`struct.pack(">HHIII", HEADER_MAGIC, command, address, param1, param2)`. -/
def send_command_frame (command address param1 param2 : Nat) : List Nat :=
  beBytes2 HEADER_MAGIC ++ beBytes2 command ++ beBytes4 address
    ++ beBytes4 param1 ++ beBytes4 param2

/-- Embedding of `RAMKernelProtocol._read_response` on the read buffer: read 8 bytes and
unpack `">hHI"` (signed 16-bit ACK, unsigned 16-bit checksum, unsigned
32-bit length); a short read raises `struct.error`. Returns the remaining
buffer. -/
def readResp : List Nat → List Nat × Except RKLError (Int × Nat × Nat)
  | b0 :: b1 :: b2 :: b3 :: b4 :: b5 :: b6 :: b7 :: rest =>
      let ackU := b0 * 256 + b1
      let ack : Int := if 0x8000 ≤ ackU then (ackU : Int) - 0x10000 else (ackU : Int)
      let checksum := b2 * 256 + b3
      let length := ((b4 * 256 + b5) * 256 + b6) * 256 + b7
      (rest, .ok (ack, checksum, length))
  | buf => (buf, .error .structError)

/-- Embedding of `read_payload` inside `flash_dump`: read `length` payload bytes
(`self.channel.read(length)`, empty when `length == 0`), compare the
host-computed checksum with the device's, and fail on mismatch with
`ChecksumError(checksum, mychecksum)`. -/
def readPayload (buf : List Nat) (checksum length : Nat) :
    List Nat × Except RKLError (List Nat) :=
  let payload := buf.take length
  let mychecksum := calculate_checksum payload
  if mychecksum ≠ checksum then
    (buf.drop length, .error (.checksumError checksum mychecksum))
  else (buf.drop length, .ok payload)

/-- Embedding of `RAMKernelProtocol.getver`: send `CMD_GETVER`, require ACK in
{SUCCESS, FLASH_PARTLY} (`_send_command`), then read the `length`-byte
payload; returns `(checksum, payload)`.  No initialization state is
consulted. -/
def getver (ch : Channel) : Channel × Except RKLError (Nat × List Nat) :=
  let ch0 := chanWrite ch (send_command_frame CMD_GETVER 0 0 0)
  match readResp ch0.readBuf with
  | (buf1, .error e) => ({ ch0 with readBuf := buf1 }, .error e)
  | (buf1, .ok (ack, checksum, length)) =>
      if ack = ACK_SUCCESS ∨ ack = ACK_FLASH_PARTLY then
        let payload := buf1.take length
        ({ ch0 with readBuf := buf1.drop length }, .ok (checksum, payload))
      else ({ ch0 with readBuf := buf1 },
            .error (.commandResponseError CMD_GETVER ack length))

/-- Embedding of `RAMKernelProtocol.flash_initial`: send `CMD_FLASH_INITIAL` and require
ACK in {SUCCESS, FLASH_PARTLY}.  No state flag exists to be set. -/
def flash_initial (ch : Channel) : Channel × Except RKLError Unit :=
  let ch0 := chanWrite ch (send_command_frame CMD_FLASH_INITIAL 0 0 0)
  match readResp ch0.readBuf with
  | (buf1, .error e) => ({ ch0 with readBuf := buf1 }, .error e)
  | (buf1, .ok (ack, _, length)) =>
      if ack = ACK_SUCCESS ∨ ack = ACK_FLASH_PARTLY then
        ({ ch0 with readBuf := buf1 }, .ok ())
      else ({ ch0 with readBuf := buf1 },
            .error (.commandResponseError CMD_FLASH_INITIAL ack length))

/-- Embedding of `RAMKernelProtocol.flash_get_capacity`: send the command without
waiting, read one response, require `ACK_SUCCESS`, and return the `length`
field as the capacity.  No initialization state is consulted. -/
def flash_get_capacity (ch : Channel) : Channel × Except RKLError Nat :=
  let ch0 := chanWrite ch (send_command_frame CMD_FLASH_GET_CAPACITY 0 0 0)
  match readResp ch0.readBuf with
  | (buf1, .error e) => ({ ch0 with readBuf := buf1 }, .error e)
  | (buf1, .ok (ack, _, capacity)) =>
      if ack = ACK_SUCCESS then ({ ch0 with readBuf := buf1 }, .ok capacity)
      else ({ ch0 with readBuf := buf1 },
            .error (.commandResponseError CMD_FLASH_GET_CAPACITY ack capacity))

/-- A successful `_read_response` consumed exactly 8 buffered bytes. -/
theorem readResp_ok_length {buf rest : List Nat} {v : Int × Nat × Nat}
    (h : readResp buf = (rest, .ok v)) : rest.length + 8 = buf.length := by
  unfold readResp at h
  split at h
  · simp only [Prod.mk.injEq, Except.ok.injEq] at h
    simp [← h.1]
  · simp at h

/-- The function `readPayload` leaves `buf.drop length` in the buffer. -/
theorem readPayload_fst (buf : List Nat) (checksum length : Nat) :
    (readPayload buf checksum length).1 = buf.drop length := by
  unfold readPayload
  simp only []
  split <;> rfl

/-- The read loop of `flash_dump`: while fewer than `size` payload bytes
have accumulated, read a response header, require `ACK_FLASH_PARTLY`, read
and checksum-verify the payload, and append it. On exit return the
concatenation of the payloads in arrival order. -/
def dumpLoop (buf : List Nat) (size : Nat) (payload_list : List (List Nat))
    (total_bytes : Nat) : List Nat × Except RKLError (List Nat) :=
  if total_bytes < size then
    match h : readResp buf with
    | (buf1, .error e) => (buf1, .error e)
    | (buf1, .ok (ack, checksum, length)) =>
        if ack ≠ ACK_FLASH_PARTLY then
          (buf1, .error (.commandResponseError CMD_FLASH_DUMP ack length))
        else
          match h2 : readPayload buf1 checksum length with
          | (buf2, .error e) => (buf2, .error e)
          | (buf2, .ok payload) =>
              dumpLoop buf2 size (payload_list ++ [payload])
                (total_bytes + payload.length)
  else (buf, .ok payload_list.flatten)
termination_by buf.length
decreasing_by
  have e1 := readResp_ok_length h
  have e2 : buf2 = buf1.drop length := by
    have := congrArg Prod.fst h2
    simp only [readPayload_fst] at this
    exact this.symm
  have : buf2.length ≤ buf1.length := by
    simp [e2]
  omega

/-- Embedding of `RAMKernelProtocol.flash_dump(address, size)`: send the command, handle
the first response through `_send_command` (ACK must be SUCCESS or
FLASH_PARTLY) and `read_payload`, then keep reading FLASH_PARTLY responses
until the accumulated payload bytes reach `size`. -/
def flash_dump (ch : Channel) (address size : Nat) :
    Channel × Except RKLError (List Nat) :=
  let ch0 := chanWrite ch (send_command_frame CMD_FLASH_DUMP address size 0)
  match readResp ch0.readBuf with
  | (buf1, .error e) => ({ ch0 with readBuf := buf1 }, .error e)
  | (buf1, .ok (ack, checksum, length)) =>
      if ack = ACK_SUCCESS ∨ ack = ACK_FLASH_PARTLY then
        match readPayload buf1 checksum length with
        | (buf2, .error e) => ({ ch0 with readBuf := buf2 }, .error e)
        | (buf2, .ok payload) =>
            let (buf3, r) := dumpLoop buf2 size [payload] payload.length
            ({ ch0 with readBuf := buf3 }, r)
      else ({ ch0 with readBuf := buf1 },
            .error (.commandResponseError CMD_FLASH_DUMP ack length))

/-- The read loop of `flash_erase`: as long as responses carry
`ACK_FLASH_ERASE`, record one `(block_index, block_size)` callback
invocation per response; `ACK_SUCCESS` ends the stream, anything else
fails. Returns the callback invocations in call order. -/
def eraseLoop (buf : List Nat) (cb_list : List (Nat × Nat)) :
    List Nat × Except RKLError (List (Nat × Nat)) :=
  match h : readResp buf with
  | (buf1, .error e) => (buf1, .error e)
  | (buf1, .ok (ack, i, block_size)) =>
      if ack = ACK_FLASH_ERASE then eraseLoop buf1 (cb_list ++ [(i, block_size)])
      else if ack = ACK_SUCCESS then (buf1, .ok cb_list)
      else (buf1, .error (.commandResponseError CMD_FLASH_ERASE ack block_size))
termination_by buf.length
decreasing_by
  have e1 := readResp_ok_length h
  omega

/-- Embedding of `RAMKernelProtocol.flash_erase(start_address, size, erase_callback)`:
send the command without waiting for a response, then run the erase read
loop.  The returned list holds the `erase_callback` invocations. -/
def flash_erase (ch : Channel) (start_address size : Nat) :
    Channel × Except RKLError (List (Nat × Nat)) :=
  let ch0 := chanWrite ch (send_command_frame CMD_FLASH_ERASE start_address size 0)
  let (buf1, r) := eraseLoop ch0.readBuf []
  ({ ch0 with readBuf := buf1 }, r)

/-- The post-payload read loop of `flash_program`: given the ACK, partial
length and running total of the last response, record one
`program_callback(length, total_length)` invocation per `ACK_FLASH_PARTLY`
response and keep reading while the ACK is `ACK_FLASH_PARTLY`; each
response's ACK must be SUCCESS, FLASH_PARTLY or FLASH_VERIFY. -/
def programLoop (buf : List Nat) (ack : Int) (length total_length : Nat)
    (cb_list : List (Nat × Nat)) : List Nat × Except RKLError (List (Nat × Nat)) :=
  if ack = ACK_FLASH_PARTLY then
    let cb_list' := cb_list ++ [(length, total_length)]
    match h : readResp buf with
    | (buf1, .error e) => (buf1, .error e)
    | (buf1, .ok (ack2, _, length2)) =>
        if ack2 = ACK_SUCCESS ∨ ack2 = ACK_FLASH_PARTLY ∨ ack2 = ACK_FLASH_VERIFY then
          programLoop buf1 ack2 length2 (total_length + length2) cb_list'
        else (buf1, .error (.commandResponseError CMD_FLASH_PROGRAM ack2 length2))
  else (buf, .ok cb_list)
termination_by buf.length
decreasing_by
  have e1 := readResp_ok_length h
  omega

/-- Embedding of `RAMKernelProtocol.flash_program(start_address, data, file_format,
read_back_verify, program_callback)`: validate the arguments
(`start_address ≥ 0`, `0 < len(data) ≤ 2 MiB`, `file_format ∈ {0,1,2}`),
fail with `NotImplementedError` when `read_back_verify` is requested, send
the command, require an initial `ACK_SUCCESS`, write the whole payload, and
run the program response loop.  The returned list holds the
`program_callback` invocations. -/
def flash_program (ch : Channel) (start_address : Int) (data : List Nat)
    (file_format : Int) (read_back_verify : Bool) :
    Channel × Except RKLError (List (Nat × Nat)) :=
  if start_address < 0 then (ch, .error .valueError)
  else if data.length = 0 then (ch, .error .valueError)
  else if FLASH_PROGRAM_MAX_WRITE_SIZE < data.length then (ch, .error .valueError)
  else if ¬(file_format = FLASH_FILE_FORMAT_NORMAL ∨
            file_format = FLASH_FILE_FORMAT_NB0 ∨
            file_format = FLASH_FILE_FORMAT_OPS) then (ch, .error .valueError)
  else if read_back_verify then (ch, .error .notImplementedError)
  else
    let flags := file_format
    let ch0 := chanWrite ch (send_command_frame CMD_FLASH_PROGRAM
      start_address.toNat data.length flags.toNat)
    match readResp ch0.readBuf with
    | (buf1, .error e) => ({ ch0 with readBuf := buf1 }, .error e)
    | (buf1, .ok (ack, _, length)) =>
        if ack ≠ ACK_SUCCESS then
          ({ ch0 with readBuf := buf1 },
           .error (.commandResponseError CMD_FLASH_PROGRAM ack length))
        else
          let ch1 := chanWrite { ch0 with readBuf := buf1 } data
          match readResp ch1.readBuf with
          | (buf2, .error e) => ({ ch1 with readBuf := buf2 }, .error e)
          | (buf2, .ok (ack2, _, length2)) =>
              if ack2 = ACK_SUCCESS ∨ ack2 = ACK_FLASH_PARTLY ∨
                 ack2 = ACK_FLASH_VERIFY then
                let (buf3, r) := programLoop buf2 ack2 length2 length2 []
                ({ ch1 with readBuf := buf3 }, r)
              else ({ ch1 with readBuf := buf2 },
                    .error (.commandResponseError CMD_FLASH_PROGRAM ack2 length2))

/-- Embedding of `RAMKernelProtocol.reset`: fire-and-forget `CMD_RESET`. -/
def reset (ch : Channel) : Channel :=
  chanWrite ch (send_command_frame CMD_RESET 0 0 0)

end ramkernel

/-- Writing nothing leaves the channel unchanged. -/
theorem chanWrite_nil (ch : Channel) : chanWrite ch [] = ch := by
  cases ch
  simp [chanWrite]

/-- Consecutive writes concatenate. -/
theorem chanWrite_chanWrite (ch : Channel) (a b : List Nat) :
    chanWrite (chanWrite ch a) b = chanWrite ch (a ++ b) := by
  simp [chanWrite, List.append_assoc]

namespace boot

/-- The streaming loop of `write_file` on a sufficiently long stream:
it succeeds and writes a prefix of the stream of some size `t` with
`length ≤ t`, `t ≤ stream.length`, overshoot bounded by one chunk
(`t < length + 1024` whenever any byte was still owed), `t = 0` when
nothing was owed — so `t = length` exactly when the stream holds exactly
`length` bytes. -/
theorem writeFileLoop_spec (len : Nat) :
    ∀ (n : Nat) (stream : List Nat), stream.length = n →
    ∀ (ch : Channel) (consumed : Nat), len ≤ consumed + stream.length →
    ∃ t, writeFileLoop ch stream len consumed = (chanWrite ch (stream.take t), .ok ()) ∧
       len ≤ consumed + t ∧ t ≤ stream.length ∧
       (len ≤ consumed → t = 0) ∧
       (consumed < len → consumed + t < len + 1024) := by
  intro n
  induction n using Nat.strong_induction_on with
  | _ n ih =>
      intro stream hn ch consumed hcover
      by_cases hdone : len ≤ consumed
      · refine ⟨0, ?_, by omega, by omega, fun _ => rfl, by omega⟩
        rw [writeFileLoop]
        simp [Nat.not_lt.mpr hdone, chanWrite_nil]
      · have hcons : consumed < len := by omega
        have hpos : 0 < stream.length := by omega
        have hne : stream ≠ [] := by
          intro hnil
          simp [hnil] at hpos
        have hchunkne : stream.take 1024 ≠ [] := by
          cases stream with
          | nil => exact absurd rfl hne
          | cons a t => simp
        have hdroplen : (stream.drop 1024).length < n := by
          simp only [List.length_drop]
          omega
        have hcover2 : len ≤ (consumed + (stream.take 1024).length) +
            (stream.drop 1024).length := by
          simp only [List.length_take, List.length_drop]
          omega
        obtain ⟨t', heq, hle, hbound, hzero, hover⟩ :=
          ih (stream.drop 1024).length hdroplen (stream.drop 1024) rfl
            (chanWrite ch (stream.take 1024))
            (consumed + (stream.take 1024).length) hcover2
        refine ⟨(stream.take 1024).length + t', ?_, ?_, ?_, ?_, ?_⟩
        · rw [writeFileLoop]
          simp only [hcons, if_pos, dif_neg hchunkne]
          rw [heq, chanWrite_chanWrite]
          have htake : stream.take ((stream.take 1024).length + t') =
              stream.take 1024 ++ (stream.drop 1024).take t' := by
            rw [List.length_take]
            rcases Nat.le_total 1024 stream.length with hms | hms
            · rw [Nat.min_eq_left hms, List.take_add]
            · rw [Nat.min_eq_right hms]
              rw [List.take_of_length_le hms, List.drop_of_length_le hms,
                List.take_of_length_le (by omega), List.take_nil]
              simp
          rw [htake]
        · simp only [List.length_take] at hle ⊢
          omega
        · simp only [List.length_take, List.length_drop] at hbound ⊢
          omega
        · omega
        · intro _
          simp only [List.length_take, List.length_drop] at hover hzero ⊢
          by_cases hfull : len ≤ consumed + min 1024 stream.length
          · have := hzero hfull
            omega
          · have := hover (by omega)
            omega

/-- The streaming loop of `write_file` fails with `ValueError` when the
stream is exhausted before `length` bytes have been consumed. -/
theorem writeFileLoop_short (len : Nat) :
    ∀ (n : Nat) (stream : List Nat), stream.length = n →
    ∀ (ch : Channel) (consumed : Nat), consumed + stream.length < len →
    (writeFileLoop ch stream len consumed).2 = .error .valueError := by
  intro n
  induction n using Nat.strong_induction_on with
  | _ n ih =>
      intro stream hn ch consumed hshort
      have hcons : consumed < len := by omega
      rw [writeFileLoop]
      simp only [hcons, if_pos]
      cases hstream : stream with
      | nil => simp
      | cons a t =>
          have hchunkne : stream.take 1024 ≠ [] := by
            simp [hstream]
          rw [← hstream]
          simp only [dif_neg hchunkne]
          apply ih (stream.drop 1024).length _ _ rfl
          · simp only [List.length_take, List.length_drop]
            omega
          · simp only [List.length_drop]
            have : 0 < stream.length := by simp [hstream]
            omega

end boot

namespace ramkernel

/-! ### Device-side response encodings

These mirror the byte strings the repository's `MockChannel.queue_rkl_response`
queues for the host: an 8-byte `">hHI"` header followed by an optional
payload. -/

/-- The 8-byte wire encoding of a response header with a non-negative ACK. -/
def respBytes (ack checksum length : Nat) : List Nat :=
  beBytes2 ack ++ beBytes2 checksum ++ beBytes4 length

/-- One `flash_dump` data chunk as it appears on the wire: a FLASH_PARTLY
header whose checksum field is the 16-bit sum of the payload, then the
payload itself. -/
def dumpChunkBytes (p : List Nat) : List Nat :=
  respBytes 1 (calculate_checksum p) p.length ++ p

/-- A whole `flash_dump` response stream. -/
def dumpStreamBytes (chunks : List (List Nat)) : List Nat :=
  (chunks.map dumpChunkBytes).flatten

/-- A `flash_erase` response stream: one FLASH_ERASE header per block with
`checksum = block_index` and `length = block_size`. -/
def eraseStreamBytes (blocks : List (Nat × Nat)) : List Nat :=
  (blocks.map (fun b => respBytes 2 b.1 b.2)).flatten

/-- Decoding a well-formed response header consumes its 8 bytes and returns
the encoded fields. -/
theorem readResp_respBytes (ack checksum length : Nat) (rest : List Nat)
    (hack : ack < 0x8000) (hck : checksum < 0x10000) (hlen : length < 2 ^ 32) :
    readResp (respBytes ack checksum length ++ rest) =
      (rest, .ok ((ack : Int), checksum, length)) := by
  have h1 : ack / 256 % 256 * 256 + ack % 256 = ack := by omega
  have h2 : checksum / 256 % 256 * 256 + checksum % 256 = checksum := by omega
  have h3 : ((length / 16777216 % 256 * 256 + length / 65536 % 256) * 256 +
      length / 256 % 256) * 256 + length % 256 = length := by omega
  simp only [respBytes, beBytes2, beBytes4, List.cons_append, List.nil_append,
    readResp, h1, h2, h3]
  have : ¬ 0x8000 ≤ ack := by omega
  simp [this]

/-- The host checksum is a 16-bit value. -/
theorem calculate_checksum_lt (buf : List Nat) : calculate_checksum buf < 0x10000 := by
  have aux : ∀ (l : List Nat) (c : Nat), c < 0x10000 →
      l.foldl (fun checksum byte => (checksum + byte) % 0x10000) c < 0x10000 := by
    intro l
    induction l with
    | nil => intro c hc; simpa using hc
    | cons b t ih =>
        intro c hc
        simp only [List.foldl_cons]
        exact ih _ (Nat.mod_lt _ (by omega))
  exact aux buf 0 (by omega)

/-- Reading a correctly checksummed payload off the buffer succeeds and
consumes exactly the payload. -/
theorem readPayload_self (p rest : List Nat) :
    readPayload (p ++ rest) (calculate_checksum p) p.length = (rest, .ok p) := by
  unfold readPayload
  simp [List.take_left, List.drop_left]

/-- Total byte count of a list of payload chunks. -/
def sumLens (chunks : List (List Nat)) : Nat :=
  (chunks.map List.length).sum

/-- Running the dump read loop over a stream of correctly checksummed
FLASH_PARTLY chunks whose cumulative size first reaches `size` at the last
chunk consumes exactly the stream and returns all payloads in order. -/
theorem dumpLoop_stream (size : Nat) :
    ∀ (chunks acc : List (List Nat)) (total : Nat) (rest : List Nat),
      (∀ k, k < chunks.length → total + sumLens (chunks.take k) < size) →
      size ≤ total + sumLens chunks →
      (∀ p ∈ chunks, p.length < 2 ^ 32) →
      dumpLoop (dumpStreamBytes chunks ++ rest) size acc total =
        (rest, .ok (acc ++ chunks).flatten) := by
  intro chunks
  induction chunks with
  | nil =>
      intro acc total rest _ hge _
      rw [dumpLoop]
      simp only [sumLens, List.map_nil, List.sum_nil, Nat.add_zero] at hge
      simp [dumpStreamBytes, Nat.not_lt.mpr hge]
  | cons p ps ih =>
      intro acc total rest hlt hge hsz
      have htot : total < size := by
        have := hlt 0 (by simp)
        simpa [sumLens] using this
      have hbuf : dumpStreamBytes (p :: ps) ++ rest =
          respBytes 1 (calculate_checksum p) p.length ++
            (p ++ (dumpStreamBytes ps ++ rest)) := by
        simp [dumpStreamBytes, dumpChunkBytes, List.append_assoc]
      rw [dumpLoop, hbuf,
        readResp_respBytes 1 (calculate_checksum p) p.length _
          (by omega) (calculate_checksum_lt p) (hsz p (by simp))]
      simp only [htot, if_pos, ACK_FLASH_PARTLY, ne_eq]
      rw [readPayload_self p (dumpStreamBytes ps ++ rest)]
      simp only [reduceIte, Int.reduceEq, not_true_eq_false]
      rw [ih (acc ++ [p]) (total + p.length) rest]
      · simp
      · intro k hk
        have := hlt (k + 1) (by simpa using hk)
        simpa [sumLens, Nat.add_assoc] using this
      · simpa [sumLens, Nat.add_assoc] using hge
      · intro q hq
        exact hsz q (by simp [hq])

/-- Running the dump read loop over correctly checksummed FLASH_PARTLY
chunks that never reach `size`, followed by a FLASH_PARTLY response whose
header checksum `d` disagrees with the 16-bit sum of its payload `q`, fails
with `ChecksumError(d, calculate_checksum(q))`. -/
theorem dumpLoop_checksum_mismatch (size : Nat) (d : Nat) (q : List Nat) :
    ∀ (good acc : List (List Nat)) (total : Nat) (rest : List Nat),
      (∀ k, k ≤ good.length → total + sumLens (good.take k) < size) →
      (∀ p ∈ good, p.length < 2 ^ 32) →
      d < 0x10000 → q.length < 2 ^ 32 → d ≠ calculate_checksum q →
      (dumpLoop (dumpStreamBytes good ++ respBytes 1 d q.length ++ q ++ rest)
          size acc total).2 =
        .error (.checksumError d (calculate_checksum q)) := by
  intro good
  induction good with
  | nil =>
      intro acc total rest hlt _ hd hq hne
      have htot : total < size := by
        have := hlt 0 (by simp)
        simpa [sumLens] using this
      rw [dumpLoop]
      simp only [dumpStreamBytes, List.map_nil, List.flatten_nil, List.nil_append]
      rw [List.append_assoc, readResp_respBytes 1 d q.length _ (by omega) hd hq]
      simp only [htot, if_pos, ACK_FLASH_PARTLY, ne_eq, Nat.cast_one, Int.reduceEq,
        not_true_eq_false, reduceIte]
      unfold readPayload
      have hne' : ¬ calculate_checksum (List.take q.length (q ++ rest)) = d := by
        rw [List.take_left]
        exact fun hh => hne hh.symm
      split
      · rename_i buf2 e h2
        rw [if_pos hne'] at h2
        simp only [Prod.mk.injEq, Except.error.injEq] at h2
        simp [← h2.2, List.take_left]
      · rename_i buf2 payload h2
        rw [if_pos hne'] at h2
        simp at h2
  | cons p ps ih =>
      intro acc total rest hlt hsz hd hq hne
      have htot : total < size := by
        have := hlt 0 (by simp)
        simpa [sumLens] using this
      have hbuf : dumpStreamBytes (p :: ps) ++ respBytes 1 d q.length ++ q ++ rest =
          respBytes 1 (calculate_checksum p) p.length ++
            (p ++ (dumpStreamBytes ps ++ respBytes 1 d q.length ++ q ++ rest)) := by
        simp [dumpStreamBytes, dumpChunkBytes, List.append_assoc]
      rw [dumpLoop, hbuf,
        readResp_respBytes 1 (calculate_checksum p) p.length _
          (by omega) (calculate_checksum_lt p) (hsz p (by simp))]
      simp only [htot, if_pos, ACK_FLASH_PARTLY, ne_eq, Int.reduceEq,
        not_true_eq_false, reduceIte]
      have hq2 : p ++ (dumpStreamBytes ps ++ respBytes 1 d q.length ++ q ++ rest) =
          p ++ (dumpStreamBytes ps ++ (respBytes 1 d q.length ++ q ++ rest)) := by
        simp [List.append_assoc]
      rw [hq2, readPayload_self p (dumpStreamBytes ps ++ (respBytes 1 d q.length ++ q ++ rest))]
      have := ih (acc ++ [p]) (total + p.length) rest
        (by
          intro k hk
          have := hlt (k + 1) (by simpa using hk)
          simpa [sumLens, Nat.add_assoc] using this)
        (by intro r hr; exact hsz r (by simp [hr])) hd hq hne
      simpa [List.append_assoc] using this

/-- Running the erase read loop over a stream of `N` FLASH_ERASE responses
followed by a SUCCESS response records exactly the `N`
`(block_index, block_size)` pairs, in order, and succeeds. -/
theorem eraseLoop_stream :
    ∀ (blocks cb : List (Nat × Nat)) (c l : Nat) (rest : List Nat),
      (∀ b ∈ blocks, b.1 < 0x10000 ∧ b.2 < 2 ^ 32) →
      c < 0x10000 → l < 2 ^ 32 →
      eraseLoop (eraseStreamBytes blocks ++ respBytes 0 c l ++ rest) cb =
        (rest, .ok (cb ++ blocks)) := by
  intro blocks
  induction blocks with
  | nil =>
      intro cb c l rest _ hc hl
      rw [eraseLoop]
      simp only [eraseStreamBytes, List.map_nil, List.flatten_nil, List.nil_append]
      rw [readResp_respBytes 0 c l rest (by omega) hc hl]
      simp [ACK_FLASH_ERASE, ACK_SUCCESS]
  | cons b bs ih =>
      intro cb c l rest hb hc hl
      have hbuf : eraseStreamBytes (b :: bs) ++ respBytes 0 c l ++ rest =
          respBytes 2 b.1 b.2 ++ (eraseStreamBytes bs ++ respBytes 0 c l ++ rest) := by
        simp [eraseStreamBytes, List.append_assoc]
      rw [eraseLoop, hbuf,
        readResp_respBytes 2 b.1 b.2 _ (by omega) (hb b (by simp)).1 (hb b (by simp)).2]
      simp only [ACK_FLASH_ERASE, Int.reduceEq, reduceIte]
      rw [ih (cb ++ [(b.1, b.2)]) c l rest (by intro x hx; exact hb x (by simp [hx])) hc hl]
      simp

end ramkernel

/-! ## Claim theorems -/

/-- Padding to 16 bytes yields a frame of `max (original length) 16` bytes. -/
theorem pad_command_length (l : List Nat) :
    (boot.pad_command l).length = max l.length 16 := by
  unfold boot.pad_command
  split
  · simp only [List.length_append, List.length_replicate]
    omega
  · omega

/-- C1 counterexample: the claim places a byte-width value at offset 15
with every other trailing byte zero; the frame `write_memory` actually
emits for `(address, width, value) = (0, BYTE, 1)` is not that frame (the
value sits at offset 14 and offset 15 is the zero pad byte). -/
theorem C1_write_memory_byte_at_offset_15_false :
    boot.write_memory_command 0 boot.DATA_SIZE_BYTE 1 ≠
      [0x02, 0x02, 0x00, 0x00, 0x00, 0x00, 0x08, 0, 0, 0, 0, 0, 0, 0, 0, 1] := by
  decide

/-- C1 (amended): for every address in [0, 2^32) and in-range value, the
16-byte `write_memory` frame carries opcode 0x0202 at offsets 0-1, the
address big-endian at offsets 2-5, the width code at offset 6, and the
value big-endian at offset 14 for BYTE width, offsets 13-14 for HALFWORD,
and offsets 11-14 for WORD, with every other byte (including the final
offset-15 pad byte) zero. -/
theorem C1_write_memory_frame_layout (address value : Nat)
    (hA : address ≤ 0xffffffff) :
    (value ≤ 0xff →
      boot.write_memory_command address boot.DATA_SIZE_BYTE value =
        [0x02, 0x02] ++ beBytes4 address ++
          [0x08, 0, 0, 0, 0, 0, 0, 0, value, 0]) ∧
    (value ≤ 0xffff →
      boot.write_memory_command address boot.DATA_SIZE_HALFWORD value =
        [0x02, 0x02] ++ beBytes4 address ++
          [0x10, 0, 0, 0, 0, 0, 0, value / 256, value % 256, 0]) ∧
    (value ≤ 0xffffffff →
      boot.write_memory_command address boot.DATA_SIZE_WORD value =
        [0x02, 0x02] ++ beBytes4 address ++
          [0x20, 0, 0, 0, 0] ++ beBytes4 value ++ [0]) := by
  refine ⟨fun hv => ?_, fun hv => ?_, fun hv => ?_⟩
  · have hm : value % 256 = value := Nat.mod_eq_of_lt (by omega)
    simp [boot.write_memory_command, boot.pad_command, beBytes2, beBytes4,
      boot.CMD_WRITE_MEMORY, boot.DATA_SIZE_BYTE, boot.DATA_SIZE_HALFWORD,
      boot.DATA_SIZE_WORD, hm]
  · have hm : value / 256 % 256 = value / 256 := Nat.mod_eq_of_lt (by omega)
    simp [boot.write_memory_command, boot.pad_command, beBytes2, beBytes4,
      boot.CMD_WRITE_MEMORY, boot.DATA_SIZE_BYTE, boot.DATA_SIZE_HALFWORD,
      boot.DATA_SIZE_WORD, hm]
  · simp [boot.write_memory_command, boot.pad_command, beBytes2, beBytes4,
      boot.CMD_WRITE_MEMORY, boot.DATA_SIZE_BYTE, boot.DATA_SIZE_HALFWORD,
      boot.DATA_SIZE_WORD]

/-- C1 witness: the amended layout at the concrete frames the repository's
own tests check (`test_write_memory_byte` / `halfword` / `word`). -/
theorem C1_write_memory_frame_layout_witness :
    boot.write_memory_command 0xbeefcafe boot.DATA_SIZE_BYTE 0x01 =
      [0x02, 0x02, 0xbe, 0xef, 0xca, 0xfe, 0x08, 0, 0, 0, 0, 0, 0, 0, 0x01, 0] ∧
    boot.write_memory_command 0xbeefcafe boot.DATA_SIZE_HALFWORD 0xfeed =
      [0x02, 0x02, 0xbe, 0xef, 0xca, 0xfe, 0x10, 0, 0, 0, 0, 0, 0, 0xfe, 0xed, 0] ∧
    boot.write_memory_command 0xbeefcafe boot.DATA_SIZE_WORD 0xcafefeed =
      [0x02, 0x02, 0xbe, 0xef, 0xca, 0xfe, 0x20, 0, 0, 0, 0, 0xca, 0xfe, 0xfe, 0xed, 0] := by
  have h := C1_write_memory_frame_layout 0xbeefcafe
  refine ⟨?_, ?_, ?_⟩
  · have := (h 0x01 (by decide)).1 (by decide)
    simpa [beBytes4] using this
  · have := (h 0xfeed (by decide)).2.1 (by decide)
    simpa [beBytes4] using this
  · have := (h 0xcafefeed (by decide)).2.2 (by decide)
    simpa [beBytes4] using this

/-- C9: every SBP command frame (get_status, read_memory, write_memory,
write_file, reenumerate_usb — complete_boot reuses get_status) emitted
through `_write_command`'s zero padding, and every RKL frame produced by
`_send_command`'s `(magic, command, address, param1, param2)` packing, is
exactly 16 bytes long. -/
theorem C9_all_command_frames_are_16_bytes :
    boot.get_status_command.length = 16 ∧
    (∀ address datasize length,
      (boot.read_memory_command address datasize length).length = 16) ∧
    (∀ address datasize value,
      (boot.write_memory_command address datasize value).length = 16) ∧
    (∀ filetype address length,
      (boot.write_file_command filetype address length).length = 16) ∧
    (∀ serialnum : List Nat, serialnum.length = 4 →
      (boot.reenumerate_usb_command serialnum).length = 16) ∧
    (∀ command address param1 param2,
      (ramkernel.send_command_frame command address param1 param2).length = 16) := by
  refine ⟨by decide, fun a d l => ?_, fun a d v => ?_, fun f a l => ?_,
    fun s hs => ?_, fun c a p1 p2 => ?_⟩
  · simp [boot.read_memory_command, pad_command_length, beBytes2, beBytes4]
  · unfold boot.write_memory_command
    split_ifs <;>
      simp [pad_command_length, beBytes2, beBytes4]
  · simp [boot.write_file_command, pad_command_length, beBytes2, beBytes4]
  · simp [boot.reenumerate_usb_command, pad_command_length, beBytes2, hs]
  · simp [ramkernel.send_command_frame, beBytes2, beBytes4]

/-- C9 witness: concrete frames of each kind. -/
theorem C9_all_command_frames_are_16_bytes_witness :
    boot.get_status_command.length = 16 ∧
    (boot.read_memory_command 0x25 0x10 1).length = 16 ∧
    (boot.write_memory_command 0xbeefcafe 0x20 0xcafefeed).length = 16 ∧
    (boot.write_file_command 0xAA 0x80000000 0x1000).length = 16 ∧
    (boot.reenumerate_usb_command [1, 2, 3, 4]).length = 16 ∧
    (ramkernel.send_command_frame 0x0204 0 0 0).length = 16 :=
  ⟨C9_all_command_frames_are_16_bytes.1,
   C9_all_command_frames_are_16_bytes.2.1 _ _ _,
   C9_all_command_frames_are_16_bytes.2.2.1 _ _ _,
   C9_all_command_frames_are_16_bytes.2.2.2.1 _ _ _,
   C9_all_command_frames_are_16_bytes.2.2.2.2.1 [1, 2, 3, 4] (by decide),
   C9_all_command_frames_are_16_bytes.2.2.2.2.2 _ _ _ _⟩

/-- C10: for every valid address and width, `read_memory(address, width, 0)`
answered by a valid PRODUCTION or ENGINEERING ACK succeeds and returns the
empty array (not a scalar, not an error), consuming exactly the 4 ACK bytes
and no data bytes. -/
theorem C10_read_memory_zero_length (ch : Channel) (bo ho : Bool)
    (address datasize : Nat) (rest : List Nat)
    (hd : datasize = boot.DATA_SIZE_BYTE ∨ datasize = boot.DATA_SIZE_HALFWORD ∨
          datasize = boot.DATA_SIZE_WORD)
    (ha : address ≤ 0xffffffff)
    (hbuf : ch.readBuf = [0x12, 0x34, 0x34, 0x12] ++ rest ∨
            ch.readBuf = [0x56, 0x78, 0x78, 0x56] ++ rest) :
    boot.read_memory ch bo ho address datasize 0 =
      ({ readBuf := rest,
         written := ch.written ++ boot.read_memory_command address datasize 0 },
       .ok (.values [])) := by
  have ha2 : ¬ 0xffffffff < address := by omega
  rcases hd with hd | hd | hd <;> subst hd <;> rcases hbuf with hbuf | hbuf <;>
    simp [boot.read_memory, boot.DATA_SIZE_BYTE, boot.DATA_SIZE_HALFWORD,
      boot.DATA_SIZE_WORD, boot.ACK_PRODUCTION_PART, boot.ACK_ENGINEERING_PART,
      ha2, chanWrite, boot.read_ack, boot.read_status, hbuf, boot.readDataLoop]

/-- C10 witness: a concrete zero-length read after an engineering ACK. -/
theorem C10_read_memory_zero_length_witness :
    boot.read_memory ⟨[0x56, 0x78, 0x78, 0x56], []⟩ true true 0x25
        boot.DATA_SIZE_HALFWORD 0 =
      (⟨[], boot.read_memory_command 0x25 boot.DATA_SIZE_HALFWORD 0⟩,
       .ok (.values [])) := by
  have h := C10_read_memory_zero_length ⟨[0x56, 0x78, 0x78, 0x56], []⟩ true true
    0x25 boot.DATA_SIZE_HALFWORD [] (Or.inr (Or.inl rfl)) (by decide)
    (Or.inr (by decide))
  simpa using h

/-- C2: contrary to the claim, the source `RAMKernelProtocol` keeps no
initialization state: `getver` and `flash_get_capacity` called on a session
in which `flash_initial` has never run (a fresh channel) still write the
16-byte command frame to the device, and fail only afterwards on the
response read (`struct.error`), never with a state error — no such error
exists in `pyatk/ramkernel.py`, although the repository's own test
`test_kernel_not_yet_init_exception` requires `KernelNotInitializedError`
here. -/
theorem C2_flash_commands_sent_without_initialization :
    (ramkernel.getver ⟨[], []⟩ =
      (⟨[], ramkernel.send_command_frame ramkernel.CMD_GETVER 0 0 0⟩,
       .error .structError)) ∧
    (ramkernel.flash_get_capacity ⟨[], []⟩ =
      (⟨[], ramkernel.send_command_frame ramkernel.CMD_FLASH_GET_CAPACITY 0 0 0⟩,
       .error .structError)) := by
  constructor <;> rfl

/-- C5: `flash_program` with any invalid argument (empty data, data larger
than 2 MiB, negative start address, or a file format outside {0, 1, 2})
fails with the argument error before any bytes — frame or payload — are
written to the channel. -/
theorem C5_flash_program_argument_validation (ch : Channel) (start_address : Int)
    (data : List Nat) (file_format : Int) (read_back_verify : Bool)
    (h : start_address < 0 ∨ data.length = 0 ∨
         ramkernel.FLASH_PROGRAM_MAX_WRITE_SIZE < data.length ∨
         ¬(file_format = ramkernel.FLASH_FILE_FORMAT_NORMAL ∨
           file_format = ramkernel.FLASH_FILE_FORMAT_NB0 ∨
           file_format = ramkernel.FLASH_FILE_FORMAT_OPS)) :
    ramkernel.flash_program ch start_address data file_format read_back_verify =
      (ch, .error .valueError) := by
  unfold ramkernel.flash_program
  split_ifs with h1 h2 h3 h4 h5 <;>
    first
      | rfl
      | (rcases h with h | h | h | h <;> simp_all)

/-- C5 witness: empty data is rejected with nothing written. -/
theorem C5_flash_program_argument_validation_witness :
    ramkernel.flash_program ⟨[], []⟩ 0 [] ramkernel.FLASH_FILE_FORMAT_NORMAL false =
      (⟨[], []⟩, .error .valueError) :=
  C5_flash_program_argument_validation ⟨[], []⟩ 0 [] ramkernel.FLASH_FILE_FORMAT_NORMAL
    false (Or.inr (Or.inl rfl))

/-- C6: contrary to the claim, `flash_program` with `read_back_verify` true
does not run any verify protocol: it raises `NotImplementedError` right
after argument validation, before any bytes are written — although the
repository's own test `test_flash_program_verify` (and the method's
docstring) require the FLASH_VERIFY response stream with `verify_callback`
invocations ending in SUCCESS. -/
theorem C6_read_back_verify_raises_not_implemented :
    ramkernel.flash_program ⟨[], []⟩ 0 [0x61] ramkernel.FLASH_FILE_FORMAT_NORMAL true =
      (⟨[], []⟩, .error .notImplementedError) := by
  rfl

/-- C7: a successful `flash_erase` whose response stream is N FLASH_ERASE
responses carrying `(checksum = block_index, length = block_size)` followed
by one SUCCESS response invokes the erase callback exactly N times, in
arrival order, with exactly the `(block_index, block_size)` pairs carried
in the frames, and returns success. -/
theorem C7_flash_erase_callback_completeness (ch : Channel)
    (start_address size : Nat) (blocks : List (Nat × Nat)) (c l : Nat)
    (rest : List Nat)
    (hb : ∀ b ∈ blocks, b.1 < 0x10000 ∧ b.2 < 2 ^ 32)
    (hc : c < 0x10000) (hl : l < 2 ^ 32)
    (hbuf : ch.readBuf = ramkernel.eraseStreamBytes blocks ++
      ramkernel.respBytes 0 c l ++ rest) :
    ramkernel.flash_erase ch start_address size =
      ({ readBuf := rest,
         written := ch.written ++ ramkernel.send_command_frame
           ramkernel.CMD_FLASH_ERASE start_address size 0 },
       .ok blocks) := by
  obtain ⟨rb, w⟩ := ch
  simp only at hbuf
  subst hbuf
  simp only [ramkernel.flash_erase, chanWrite]
  rw [ramkernel.eraseLoop_stream blocks [] c l rest hb hc hl]
  simp

/-- C7 witness: two erased blocks of 0x20000 bytes, then SUCCESS. -/
theorem C7_flash_erase_callback_completeness_witness :
    ramkernel.flash_erase
        ⟨ramkernel.eraseStreamBytes [(0, 0x20000), (1, 0x20000)] ++
          ramkernel.respBytes 0 0 0 ++ [], []⟩ 0 1 =
      (⟨[], ramkernel.send_command_frame ramkernel.CMD_FLASH_ERASE 0 1 0⟩,
       .ok [(0, 0x20000), (1, 0x20000)]) := by
  have h := C7_flash_erase_callback_completeness
    ⟨ramkernel.eraseStreamBytes [(0, 0x20000), (1, 0x20000)] ++
      ramkernel.respBytes 0 0 0 ++ [], []⟩ 0 1
    [(0, 0x20000), (1, 0x20000)] 0 0 []
    (by decide) (by decide) (by decide) rfl
  simpa using h

/-- C3: a successful `flash_dump(address, size)` keeps reading responses
while the accumulated payload bytes are below `size`; every response's
payload is verified against the header checksum (16-bit byte sum) and
appended on equality, and the result is the concatenation of the payloads
in arrival order; a mismatching response fails with `ChecksumError` whose
`expected_checksum` is the device's header value and whose `checksum` is
the host-computed sum. -/
theorem C3_flash_dump_concatenation_and_checksum (ch : Channel)
    (address size : Nat) :
    (∀ (chunks : List (List Nat)) (rest : List Nat),
       chunks ≠ [] →
       (∀ p ∈ chunks, p.length < 2 ^ 32) →
       (∀ k, k < chunks.length → ramkernel.sumLens (chunks.take k) < size) →
       size ≤ ramkernel.sumLens chunks →
       ch.readBuf = ramkernel.dumpStreamBytes chunks ++ rest →
       ramkernel.flash_dump ch address size =
         ({ readBuf := rest,
            written := ch.written ++ ramkernel.send_command_frame
              ramkernel.CMD_FLASH_DUMP address size 0 },
          .ok chunks.flatten)) ∧
    (∀ (good : List (List Nat)) (q : List Nat) (d : Nat) (rest : List Nat),
       (∀ p ∈ good, p.length < 2 ^ 32) →
       (∀ k, k ≤ good.length → ramkernel.sumLens (good.take k) < size) →
       d < 0x10000 → q.length < 2 ^ 32 →
       d ≠ ramkernel.calculate_checksum q →
       ch.readBuf = ramkernel.dumpStreamBytes good ++
         ramkernel.respBytes 1 d q.length ++ q ++ rest →
       (ramkernel.flash_dump ch address size).2 =
         .error (.checksumError d (ramkernel.calculate_checksum q))) := by
  constructor
  · intro chunks rest hne hsz hlt hge hbuf
    obtain ⟨p, ps, rfl⟩ : ∃ p ps, chunks = p :: ps := by
      cases chunks with
      | nil => exact absurd rfl hne
      | cons p ps => exact ⟨p, ps, rfl⟩
    obtain ⟨rb, w⟩ := ch
    simp only at hbuf
    subst hbuf
    have htot : (0 : Nat) < size := by
      have := hlt 0 (by simp)
      simpa [ramkernel.sumLens] using this
    simp only [ramkernel.flash_dump, chanWrite]
    have hb2 : ramkernel.dumpStreamBytes (p :: ps) ++ rest =
        ramkernel.respBytes 1 (ramkernel.calculate_checksum p) p.length ++
          (p ++ (ramkernel.dumpStreamBytes ps ++ rest)) := by
      simp [ramkernel.dumpStreamBytes, ramkernel.dumpChunkBytes, List.append_assoc]
    rw [hb2, ramkernel.readResp_respBytes 1 (ramkernel.calculate_checksum p)
      p.length _ (by omega) (ramkernel.calculate_checksum_lt p) (hsz p (by simp))]
    simp only [ramkernel.ACK_SUCCESS, ramkernel.ACK_FLASH_PARTLY, Nat.cast_one,
      Int.reduceEq, or_true, if_pos]
    rw [ramkernel.readPayload_self p (ramkernel.dumpStreamBytes ps ++ rest)]
    dsimp only
    rw [ramkernel.dumpLoop_stream size ps [p] p.length rest
      (by
        intro k hk
        have := hlt (k + 1) (by simpa using hk)
        simpa [ramkernel.sumLens, Nat.add_assoc] using this)
      (by simpa [ramkernel.sumLens, Nat.add_assoc] using hge)
      (fun q hq => hsz q (by simp [hq]))]
    simp
  · intro good q d rest hsz hlt hd hq hne hbuf
    obtain ⟨rb, w⟩ := ch
    simp only at hbuf
    subst hbuf
    cases good with
    | nil =>
        have htot : (0 : Nat) < size := by
          have := hlt 0 (by simp)
          simpa [ramkernel.sumLens] using this
        simp only [ramkernel.flash_dump, chanWrite, ramkernel.dumpStreamBytes,
          List.map_nil, List.flatten_nil, List.nil_append]
        rw [List.append_assoc, ramkernel.readResp_respBytes 1 d q.length _
          (by omega) hd hq]
        simp only [ramkernel.ACK_SUCCESS, ramkernel.ACK_FLASH_PARTLY, Nat.cast_one,
          Int.reduceEq, or_true, if_pos]
        unfold ramkernel.readPayload
        have hne' : ¬ ramkernel.calculate_checksum (List.take q.length (q ++ rest)) = d := by
          rw [List.take_left]
          exact fun hh => hne hh.symm
        rw [if_pos hne']
        simp [List.take_left]
    | cons p ps =>
        have htot : (0 : Nat) < size := by
          have := hlt 0 (by simp)
          simpa [ramkernel.sumLens] using this
        simp only [ramkernel.flash_dump, chanWrite]
        have hb2 : ramkernel.dumpStreamBytes (p :: ps) ++
            ramkernel.respBytes 1 d q.length ++ q ++ rest =
            ramkernel.respBytes 1 (ramkernel.calculate_checksum p) p.length ++
              (p ++ (ramkernel.dumpStreamBytes ps ++
                ramkernel.respBytes 1 d q.length ++ q ++ rest)) := by
          simp [ramkernel.dumpStreamBytes, ramkernel.dumpChunkBytes, List.append_assoc]
        rw [hb2, ramkernel.readResp_respBytes 1 (ramkernel.calculate_checksum p)
          p.length _ (by omega) (ramkernel.calculate_checksum_lt p) (hsz p (by simp))]
        simp only [ramkernel.ACK_SUCCESS, ramkernel.ACK_FLASH_PARTLY, Nat.cast_one,
          Int.reduceEq, or_true, if_pos]
        have hb3 : p ++ (ramkernel.dumpStreamBytes ps ++
            ramkernel.respBytes 1 d q.length ++ q ++ rest) =
            p ++ (ramkernel.dumpStreamBytes ps ++
              (ramkernel.respBytes 1 d q.length ++ q ++ rest)) := by
          simp [List.append_assoc]
        rw [hb3, ramkernel.readPayload_self p (ramkernel.dumpStreamBytes ps ++
          (ramkernel.respBytes 1 d q.length ++ q ++ rest))]
        dsimp only
        have hloop := ramkernel.dumpLoop_checksum_mismatch size d q ps [p]
          p.length rest
          (by
            intro k hk
            have := hlt (k + 1) (by simpa using hk)
            simpa [ramkernel.sumLens, Nat.add_assoc] using this)
          (fun r hr => hsz r (by simp [hr])) hd hq hne
        simp only [List.append_assoc] at hloop ⊢
        exact hloop

/-- C3 witness: a one-chunk dump returns the chunk; a first response whose
header checksum (10) disagrees with its payload sum (9) fails with
`ChecksumError(10, 9)`. -/
theorem C3_flash_dump_concatenation_and_checksum_witness :
    ramkernel.flash_dump ⟨ramkernel.dumpStreamBytes [[1, 2]] ++ [], []⟩ 0 2 =
      (⟨[], [] ++ ramkernel.send_command_frame ramkernel.CMD_FLASH_DUMP 0 2 0⟩,
       .ok [1, 2]) ∧
    (ramkernel.flash_dump ⟨ramkernel.dumpStreamBytes [] ++
        ramkernel.respBytes 1 10 1 ++ [9] ++ [], []⟩ 0 1).2 =
      .error (.checksumError 10 (ramkernel.calculate_checksum [9])) := by
  constructor
  · have h := (C3_flash_dump_concatenation_and_checksum
      ⟨ramkernel.dumpStreamBytes [[1, 2]] ++ [], []⟩ 0 2).1 [[1, 2]] []
      (by decide) (by decide) (by decide) (by decide) rfl
    simpa using h
  · have h := (C3_flash_dump_concatenation_and_checksum
      ⟨ramkernel.dumpStreamBytes [] ++ ramkernel.respBytes 1 10 1 ++ [9] ++ [], []⟩
      0 1).2 [] [9] 10 []
      (by decide) (by decide) (by decide) (by decide) (by decide) rfl
    simpa using h

/-- C8 counterexample: a two-response run in which the second response
carries ACK = SUCCESS together with the final chunk (1 byte, bringing the
total to the requested 2) does not complete: `flash_dump` raises
`CommandResponseError` on the SUCCESS header instead of accepting the
final chunk. -/
theorem C8_flash_dump_success_final_chunk_rejected :
    (ramkernel.flash_dump ⟨ramkernel.dumpChunkBytes [5] ++
        ramkernel.respBytes 0 6 1 ++ [6] ++ [], []⟩ 0 2).2 =
      .error (.commandResponseError ramkernel.CMD_FLASH_DUMP 0 1) := by
  simp [ramkernel.flash_dump, ramkernel.dumpChunkBytes, ramkernel.respBytes,
    ramkernel.calculate_checksum, beBytes2, beBytes4, ramkernel.readResp,
    ramkernel.readPayload, chanWrite, ramkernel.dumpLoop, ramkernel.ACK_SUCCESS,
    ramkernel.ACK_FLASH_PARTLY, ramkernel.CMD_FLASH_DUMP]

/-- C8 (amended): `flash_dump` accepts a SUCCESS response only as the
*first* response of the stream (where `_send_command` allows SUCCESS or
FLASH_PARTLY and the response may carry all the requested bytes); every
subsequent response must carry FLASH_PARTLY — a SUCCESS response carrying
the final chunk after an earlier FLASH_PARTLY chunk fails with
`CommandResponseError` instead of completing. -/
theorem C8_flash_dump_termination_styles (ch : Channel) (address size : Nat) :
    (∀ (p rest : List Nat),
       p.length < 2 ^ 32 → size ≤ p.length →
       ch.readBuf = ramkernel.respBytes 0 (ramkernel.calculate_checksum p)
         p.length ++ p ++ rest →
       ramkernel.flash_dump ch address size =
         ({ readBuf := rest,
            written := ch.written ++ ramkernel.send_command_frame
              ramkernel.CMD_FLASH_DUMP address size 0 },
          .ok p)) ∧
    (∀ (p q rest : List Nat) (d : Nat),
       p.length < 2 ^ 32 → p.length < size → d < 0x10000 → q.length < 2 ^ 32 →
       ch.readBuf = ramkernel.dumpChunkBytes p ++
         ramkernel.respBytes 0 d q.length ++ q ++ rest →
       (ramkernel.flash_dump ch address size).2 =
         .error (.commandResponseError ramkernel.CMD_FLASH_DUMP 0 q.length)) := by
  constructor
  · intro p rest hp hge hbuf
    obtain ⟨rb, w⟩ := ch
    simp only at hbuf
    subst hbuf
    simp only [ramkernel.flash_dump, chanWrite]
    rw [List.append_assoc, ramkernel.readResp_respBytes 0
      (ramkernel.calculate_checksum p) p.length _ (by omega)
      (ramkernel.calculate_checksum_lt p) hp]
    simp only [ramkernel.ACK_SUCCESS, ramkernel.ACK_FLASH_PARTLY, Nat.cast_zero,
      Int.reduceEq, true_or, if_pos]
    rw [ramkernel.readPayload_self p rest]
    dsimp only
    rw [ramkernel.dumpLoop]
    simp [Nat.not_lt.mpr hge]
  · intro p q rest d hp hlt hd hq hbuf
    obtain ⟨rb, w⟩ := ch
    simp only at hbuf
    subst hbuf
    simp only [ramkernel.flash_dump, chanWrite]
    have hb2 : ramkernel.dumpChunkBytes p ++
        ramkernel.respBytes 0 d q.length ++ q ++ rest =
        ramkernel.respBytes 1 (ramkernel.calculate_checksum p) p.length ++
          (p ++ (ramkernel.respBytes 0 d q.length ++ (q ++ rest))) := by
      simp [ramkernel.dumpChunkBytes, List.append_assoc]
    rw [hb2, ramkernel.readResp_respBytes 1 (ramkernel.calculate_checksum p)
      p.length _ (by omega) (ramkernel.calculate_checksum_lt p) hp]
    simp only [ramkernel.ACK_SUCCESS, ramkernel.ACK_FLASH_PARTLY, Nat.cast_one,
      Int.reduceEq, or_true, if_pos]
    rw [ramkernel.readPayload_self p
      (ramkernel.respBytes 0 d q.length ++ (q ++ rest))]
    dsimp only
    rw [ramkernel.dumpLoop]
    simp only [hlt, if_pos]
    rw [ramkernel.readResp_respBytes 0 d q.length _ (by omega) hd hq]
    simp [ramkernel.ACK_FLASH_PARTLY]

/-- C8 witness: a single SUCCESS response carrying both requested bytes
completes; a FLASH_PARTLY chunk followed by a SUCCESS final chunk fails. -/
theorem C8_flash_dump_termination_styles_witness :
    ramkernel.flash_dump ⟨ramkernel.respBytes 0
        (ramkernel.calculate_checksum [1, 2]) 2 ++ [1, 2] ++ [], []⟩ 0 2 =
      (⟨[], [] ++ ramkernel.send_command_frame ramkernel.CMD_FLASH_DUMP 0 2 0⟩,
       .ok [1, 2]) ∧
    (ramkernel.flash_dump ⟨ramkernel.dumpChunkBytes [5] ++
        ramkernel.respBytes 0 6 1 ++ [6] ++ [], []⟩ 0 2).2 =
      .error (.commandResponseError ramkernel.CMD_FLASH_DUMP 0 1) := by
  constructor
  · have h := (C8_flash_dump_termination_styles
      ⟨ramkernel.respBytes 0 (ramkernel.calculate_checksum [1, 2]) 2 ++
        [1, 2] ++ [], []⟩ 0 2).1 [1, 2] [] (by decide) (by decide) rfl
    simpa using h
  · exact (C8_flash_dump_termination_styles
      ⟨ramkernel.dumpChunkBytes [5] ++ ramkernel.respBytes 0 6 1 ++ [6] ++ [], []⟩
      0 2).2 [5] [6] [] 6 (by decide) (by decide) (by decide) (by decide) rfl

/-- C4 counterexample: for `write_file(APPLICATION, 0, length = 1)` with a
2-byte input stream (which holds at least `length` bytes), the engine
succeeds but writes both stream bytes after the 16-byte frame — not
exactly `length = 1` payload bytes, and no progress callback exists in the
source `write_file` to be invoked. -/
theorem C4_write_file_exact_length_false :
    (boot.write_file ⟨[0x56, 0x78, 0x78, 0x56], []⟩ 0xAA 0 1 [0x61, 0x62]).2 =
      .ok () ∧
    ¬ ((boot.write_file ⟨[0x56, 0x78, 0x78, 0x56], []⟩ 0xAA 0 1
          [0x61, 0x62]).1.written.length =
        (boot.write_file_command 0xAA 0 1).length + 1) := by
  constructor
  · simp [boot.write_file, boot.read_ack, boot.read_status, chanWrite,
      boot.ACK_PRODUCTION_PART, boot.ACK_ENGINEERING_PART, boot.writeFileLoop]
  · intro hcontra
    rw [boot.write_file] at hcontra
    simp [boot.read_ack, boot.read_status, chanWrite, boot.ACK_PRODUCTION_PART,
      boot.ACK_ENGINEERING_PART, boot.writeFileLoop, boot.write_file_command,
      boot.pad_command, beBytes2, beBytes4, boot.CMD_WRITE_FILE] at hcontra

/-- C4 (amended): after the initial ACK, `write_file` streams the input in
chunks of at most 1024 bytes until at least `length` bytes have been
consumed; every consumed chunk is written whole, so on a stream of at least
`length` bytes it succeeds and writes a stream prefix of some size `t` with
`length ≤ t ≤ stream length` and `t < length + 1024` — exactly `length`
bytes when the stream holds exactly `length` bytes; no progress callback is
invoked (the source `write_file` takes none); a stream exhausted before
`length` bytes fails with the argument error. -/
theorem C4_write_file_streaming (filetype address length : Nat)
    (stream rest : List Nat) (ch : Channel)
    (hbuf : ch.readBuf = [0x56, 0x78, 0x78, 0x56] ++ rest) :
    (length ≤ stream.length →
      ∃ t, length ≤ t ∧ t ≤ stream.length ∧ t < length + 1024 ∧
        (stream.length = length → t = length) ∧
        boot.write_file ch filetype address length stream =
          ({ readBuf := rest,
             written := ch.written ++ boot.write_file_command filetype address length
               ++ stream.take t },
           .ok ())) ∧
    (stream.length < length →
      (boot.write_file ch filetype address length stream).2 = .error .valueError) := by
  obtain ⟨rb, w⟩ := ch
  simp only at hbuf
  subst hbuf
  constructor
  · intro hcover
    obtain ⟨t, heq, hle, hbound, hzero, hover⟩ :=
      boot.writeFileLoop_spec length stream.length stream rfl
        ⟨rest, w ++ boot.write_file_command filetype address length⟩ 0
        (by omega)
    refine ⟨t, by omega, hbound, ?_, by omega, ?_⟩
    · rcases Nat.eq_zero_or_pos length with hz | hz
      · subst hz
        have := hzero (by omega)
        omega
      · have := hover (by omega)
        omega
    · simp only [boot.write_file, chanWrite, boot.read_ack, boot.read_status,
        List.cons_append, boot.ACK_PRODUCTION_PART, boot.ACK_ENGINEERING_PART]
      norm_num
      rw [heq]
      simp [chanWrite, List.append_assoc]
  · intro hshort
    simp only [boot.write_file, chanWrite, boot.read_ack, boot.read_status,
      List.cons_append, boot.ACK_PRODUCTION_PART, boot.ACK_ENGINEERING_PART]
    norm_num
    exact boot.writeFileLoop_short length stream.length stream rfl _ 0 (by omega)

/-- C4 witness: a 2-byte write from an exactly 2-byte stream writes exactly
the 2 payload bytes; a 1-byte stream for a 2-byte write fails. -/
theorem C4_write_file_streaming_witness :
    boot.write_file ⟨[0x56, 0x78, 0x78, 0x56], []⟩ 0xAA 0 2 [0x61, 0x62] =
      (⟨[], [] ++ boot.write_file_command 0xAA 0 2 ++ [0x61, 0x62]⟩, .ok ()) ∧
    (boot.write_file ⟨[0x56, 0x78, 0x78, 0x56], []⟩ 0xAA 0 2 [0x61]).2 =
      .error .valueError := by
  constructor
  · obtain ⟨t, _, hle, _, hexact, heq⟩ :=
      (C4_write_file_streaming 0xAA 0 2 [0x61, 0x62] [] ⟨[0x56, 0x78, 0x78, 0x56], []⟩
        rfl).1 (by decide)
    have ht : t = 2 := hexact (by decide)
    subst ht
    simpa using heq
  · exact (C4_write_file_streaming 0xAA 0 2 [0x61] [] ⟨[0x56, 0x78, 0x78, 0x56], []⟩
      rfl).2 (by decide)
